import Mathlib

/-!
# Verification development for `pkg/gitservice/gitservice.go`

The Go package keeps a table `mappings : map[string]*gitMapping` and a wait group,
and talks to four outside collaborators: the file system (`os`, `otiai10/copy`),
the repository engine (`go-git`), the protocol layer (`gittp`) and the free-port
allocator (`freeport`).  The embedding below passes the service state and the file
system explicitly.  Every call into a collaborator takes its answer from a record
`Env` that is an input of the call, so each theorem quantifies over every answer
the collaborators can give.
-/

namespace GitService

/-! ## Values -/

/-- Go `error` values, identified by their message. -/
abbrev Error := String

/-- A cleaned path, as the list of its components.  `filepath.Join p name` is
`p ++ [name]`. -/
abbrev Path := List String

/-- The regular files of the file system: the content found at each path. -/
abbrev FS := Path → Option String

/-- How a Go call ends: it returns its results, or the goroutine panics. -/
inductive Outcome (α : Type) where
  | returned (a : α)
  | panicked (msg : String)
  deriving DecidableEq, Repr

/-- Rendering of a path for `%s`. -/
def pathString (p : Path) : String := "/".intercalate p

/-- The `gittp.ServerConfig` literal built by `AddGit`. -/
structure ServerConfig where
  path : Path
  debug : Bool
  preCreate : String
  preReceive : String
  deriving DecidableEq, Repr

/-- The `http.Handler` returned by `gittp.NewGitServer`. -/
structure Handler where
  config : ServerConfig
  deriving DecidableEq, Repr

/-- The `http.Server` literal built by `AddGit`. -/
structure HttpServer where
  addr : String
  handler : Handler
  deriving DecidableEq, Repr

/-- Go `gitMapping`. -/
structure gitMapping where
  port : Int
  server : HttpServer
  deriving DecidableEq, Repr

/-- Go `gitService`.  `wg` is the number of `wg.Add(1)` performed so far; the matching
`wg.Done()` calls run inside the accept-loop goroutines. -/
structure gitService where
  mappings : List (Path × gitMapping)
  wg : Nat
  deriving DecidableEq, Repr

/-- What the service does to the outside, in program order. -/
inductive Event where
  | debugf (format : String) (args : List String)
  | errorf (format : String) (args : List String)
  | newGitServer (config : ServerConfig)
  | getFreePort
  | newHTTPServer (addr : String)
  | wgAdd (delta : Nat)
  | go (server : HttpServer)
  | serverShutdown (server : HttpServer) (result : Option Error)
  | wgWait (count : Nat)
  | listenAndServe (server : HttpServer)
  | wgDone
  deriving DecidableEq, Repr

/-! ## Collaborators -/

/-- Answer of one `os.RemoveAll` call.  The Go documentation: "It removes everything
it can but returns the first error it encounters"; `left` marks the paths that could
not be removed. -/
inductive RemoveResult where
  | ok
  | failed (err : Error) (left : Path → Bool)

/-- Answer of one `copy.Copy` call; on failure `done` marks the files already
written. -/
inductive CopyResult where
  | ok
  | failed (err : Error) (done : Path → Bool)

/-- The answers the collaborators give during one `AddGit` call. -/
structure Env where
  /-- Answer of `os.RemoveAll(tmpRepositoryPath)`. -/
  removeStaging : RemoveResult
  /-- Answer of `copy.Copy(path, tmpRepositoryPath)`. -/
  copy : CopyResult
  /-- Answer of `os.RemoveAll` on the `.git` entry of the staging location. -/
  removeGit : RemoveResult
  /-- Answer of `git.PlainInit`: its error and the files it writes below `.git`. -/
  initErr : Option Error
  initWrites : FS
  /-- Answer of `r.Worktree()` on a repository that exists. -/
  worktreeErr : Option Error
  /-- Answer of `w.AddGlob`: its error and the files it writes below `.git`. -/
  addGlobErr : Option Error
  addGlobWrites : FS
  /-- Answer of `w.Commit`: its error and the files it writes below `.git`. -/
  commitErr : Option Error
  commitWrites : FS
  /-- Answer of `gittp.NewGitServer(config)`. -/
  newGitServerErr : Option Error
  /-- Answer of `freeport.GetFreePort()`. -/
  freePort : Int × Option Error
  /-- What `ListenAndServe` returns inside the goroutine (a bind failure, or
  `http.ErrServerClosed` after a stop). -/
  listenResult : Error

/-- Files at or below `base` are overwritten by `w`, read relative to `base`. -/
def writeUnder (fs : FS) (base : Path) (w : FS) : FS := fun q =>
  if base.isPrefixOf q then
    match w (q.drop base.length) with
    | some c => some c
    | none => fs q
  else fs q

/-- Go `os.RemoveAll(p)`: the error returned and the file system left behind. -/
def removeAll (fs : FS) (p : Path) : RemoveResult → Option Error × FS
  | .ok => (none, fun q => if p.isPrefixOf q then none else fs q)
  | .failed err left =>
      (some err, fun q => if p.isPrefixOf q && !left q then none else fs q)

/-- Go `copy.Copy(src, dst)`: the error returned and the file system left behind. -/
def copyCopy (fs : FS) (src dst : Path) : CopyResult → Option Error × FS
  | .ok => (none, writeUnder fs dst (fun rel => fs (src ++ rel)))
  | .failed err done =>
      (some err, writeUnder fs dst (fun rel => if done rel then fs (src ++ rel) else none))

/-- A `*git.Repository`. -/
structure Repository where
  path : Path
  deriving DecidableEq, Repr

/-- A `*git.Worktree`. -/
structure Worktree where
  repo : Repository
  deriving DecidableEq, Repr

/-- Go `git.PlainInit(p, false)`: `(nil, err)` on failure, otherwise the repository, whose
metadata is written below `p/.git`. -/
def plainInit (fs : FS) (p : Path) (e : Env) : (Option Repository × Option Error) × FS :=
  match e.initErr with
  | some err => ((none, some err), fs)
  | none => ((some ⟨p⟩, none), writeUnder fs (p ++ [".git"]) e.initWrites)

/-- Go `r.Worktree()`.  The method reads a field of `r`, so a nil receiver panics. -/
def worktree (r : Option Repository) (e : Env) : Outcome (Option Worktree × Option Error) :=
  match r with
  | none => .panicked "runtime error: invalid memory address or nil pointer dereference"
  | some repo =>
    match e.worktreeErr with
    | some err => .returned (none, some err)
    | none => .returned (some ⟨repo⟩, none)

/-- Go `w.AddGlob` on the whole work tree. -/
def addGlob (fs : FS) (w : Worktree) (e : Env) : Option Error × FS :=
  match e.addGlobErr with
  | some err => (some err, fs)
  | none => (none, writeUnder fs (w.repo.path ++ [".git"]) e.addGlobWrites)

/-- Go `w.Commit` with the empty message and the default options. -/
def commit (fs : FS) (w : Worktree) (e : Env) : Option Error × FS :=
  match e.commitErr with
  | some err => (some err, fs)
  | none => (none, writeUnder fs (w.repo.path ++ [".git"]) e.commitWrites)

/-! ## The table -/

/-- Go `m[k]` with the comma-ok form. -/
def mapLookup (m : List (Path × gitMapping)) (k : Path) : Option gitMapping :=
  match m with
  | [] => none
  | (k', v) :: rest => if k' = k then some v else mapLookup rest k

/-- Go `m[k] = v`: an existing entry for `k` is replaced. -/
def mapInsert (m : List (Path × gitMapping)) (k : Path) (v : gitMapping) :
    List (Path × gitMapping) :=
  (k, v) :: m.filter (fun kv => !decide (kv.1 = k))

/-! ## The package -/

/-- Go `New`. -/
def New : gitService := { mappings := [], wg := 0 }

/-- Result of `createTmpRepository`. -/
structure SnapResult where
  ret : Outcome (Path × Option Error)
  fs : FS
  events : List Event

/-- The fixed staging location below `os.TempDir()`. -/
def stagingPath (tempDir : Path) : Path := tempDir ++ ["vulcan-local-tmp-repository"]

/-- Go `(*gitService).createTmpRepository`; `tempDir` is what `os.TempDir()` returns. -/
def createTmpRepository (tempDir : Path) (fs : FS) (e : Env) (path : Path) : SnapResult :=
  let tmpRepositoryPath := tempDir ++ ["vulcan-local-tmp-repository"]
  let rm := removeAll fs tmpRepositoryPath e.removeStaging
  match rm.1 with
  | some err => ⟨.returned ([], some err), rm.2, []⟩
  | none =>
    let cp := copyCopy rm.2 path tmpRepositoryPath e.copy
    let rmGit := removeAll cp.2 (tmpRepositoryPath ++ [".git"]) e.removeGit
    let copied := Event.debugf "Copied %s to %s" [pathString path, pathString tmpRepositoryPath]
    match cp.1 with
    | some err =>
      ⟨.returned ([], some err), rmGit.2, [copied, .errorf "Error coping tmp file: %s" [err]]⟩
    | none =>
      let init := plainInit rmGit.2 tmpRepositoryPath e
      match worktree init.1.1 e with
      | .panicked msg => ⟨.panicked msg, init.2, [copied]⟩
      | .returned (_, some err) =>
        ⟨.returned ([], some err), init.2, [copied, .errorf "Error opening worktree: %s" [err]]⟩
      | .returned (none, none) =>
        ⟨.panicked "runtime error: invalid memory address or nil pointer dereference",
          init.2, [copied]⟩
      | .returned (some w, none) =>
        let add := addGlob init.2 w e
        let cm := commit add.2 w e
        match cm.1 with
        | some err =>
          ⟨.returned ([], some err), cm.2, [copied, .errorf "Error committing: %s" [err]]⟩
        | none => ⟨.returned (tmpRepositoryPath, none), cm.2, [copied]⟩

/-- Result of `AddGit`: what it returns, the service and file system afterwards, what
it did, and the goroutines it started (each with the value its `ListenAndServe`
returns). -/
structure AddResult where
  ret : Outcome (Int × Option Error)
  gs : gitService
  fs : FS
  events : List Event
  spawned : List (HttpServer × Error)

/-- Go `(*gitService).AddGit`. -/
def AddGit (tempDir : Path) (gs : gitService) (fs : FS) (e : Env) (path : Path) : AddResult :=
  let snap := createTmpRepository tempDir fs e path
  match snap.ret with
  | .panicked msg => ⟨.panicked msg, gs, snap.fs, snap.events, []⟩
  | .returned (_, some err) => ⟨.returned (0, some err), gs, snap.fs, snap.events, []⟩
  | .returned (path, none) =>
    match mapLookup gs.mappings path with
    | some mapping => ⟨.returned (mapping.port, none), gs, snap.fs, snap.events, []⟩
    | none =>
      let config : ServerConfig :=
        { path := path, debug := false,
          preCreate := "gittp.UseGithubRepoNames", preReceive := "gittp.MasterOnly" }
      match e.newGitServerErr with
      | some err =>
        ⟨.returned (0, some err), gs, snap.fs, snap.events ++ [.newGitServer config], []⟩
      | none =>
        let handle : Handler := ⟨config⟩
        match e.freePort.2 with
        | some err =>
          ⟨.returned (0, some err), gs, snap.fs,
            snap.events ++ [.newGitServer config, .getFreePort], []⟩
        | none =>
          let port := e.freePort.1
          let r : gitMapping :=
            { port := port, server := { addr := "0.0.0.0:" ++ toString port, handler := handle } }
          ⟨.returned (port, none),
            { mappings := mapInsert gs.mappings path r, wg := gs.wg + 1 },
            snap.fs,
            snap.events ++ [.newGitServer config, .getFreePort, .newHTTPServer r.server.addr,
              .wgAdd 1,
              .debugf "Starting git server path=%s port=%d" [pathString path, toString port],
              .go r.server],
            [(r.server, e.listenResult)]⟩

/-- The body of the goroutine started by `AddGit`: the value of `ListenAndServe` is
dropped, then the deferred `wg.Done()` runs. -/
def acceptLoop (g : HttpServer × Error) : List Event :=
  [.listenAndServe g.1, .wgDone]

/-- Result of `Shutdown`. -/
structure ShutdownResult where
  ret : Outcome Unit
  gs : gitService
  events : List Event

/-- Go `(*gitService).Shutdown`; `stop` is what each `server.Shutdown` returns, and the
loop drops that value. -/
def Shutdown (gs : gitService) (stop : HttpServer → Option Error) : ShutdownResult :=
  ⟨.returned (), gs,
    gs.mappings.map (fun kv => Event.serverShutdown kv.2.server (stop kv.2.server))
      ++ [.wgWait gs.wg]⟩

/-! ## Sequences of calls -/

/-- One call on the service, with the world it runs in: for `AddGit` the value of
`os.TempDir()`, the file system and the collaborators' answers; for `Shutdown` the
value each `server.Shutdown` returns. -/
inductive Call where
  | addGit (tempDir : Path) (fs : FS) (e : Env) (path : Path)
  | shutdown (stop : HttpServer → Option Error)

/-- The service after the call, and what the call did. -/
def Call.exec (gs : gitService) : Call → gitService × List Event
  | .addGit tempDir fs e path =>
      ((AddGit tempDir gs fs e path).gs, (AddGit tempDir gs fs e path).events)
  | .shutdown stop => ((Shutdown gs stop).gs, (Shutdown gs stop).events)

/-- Calls made one after the other; the trace accumulates. -/
def run (st : gitService × List Event) (calls : List Call) : gitService × List Event :=
  calls.foldl (fun st c => ((c.exec st.1).1, st.2 ++ (c.exec st.1).2)) st

/-- The call reads `os.TempDir()` as `tempDir` (a `Shutdown` does not read it). -/
def Call.usesTempDir (tempDir : Path) : Call → Prop
  | .addGit t _ _ _ => t = tempDir
  | .shutdown _ => True

/-! ## Reading a trace -/

/-- Log lines, the only events `createTmpRepository` produces. -/
def Event.isLog : Event → Bool
  | .debugf _ _ => true
  | .errorf _ _ => true
  | _ => false

/-- Goroutine launches (`go func() ...`). -/
def Event.isGo : Event → Bool
  | .go _ => true
  | _ => false

/-- Constructions of an `http.Server`. -/
def Event.isNewServer : Event → Bool
  | .newHTTPServer _ => true
  | _ => false

/-- Wait-group additions. -/
def Event.isWgAdd : Event → Bool
  | .wgAdd _ => true
  | _ => false

/-- Stops issued by `Shutdown`. -/
def Event.isStop : Event → Bool
  | .serverShutdown _ _ => true
  | _ => false

/-- Nothing in the trace starts a listener: no port request, no handler or server
construction, no wait-group addition, no goroutine launch. -/
def startsNothing (evs : List Event) : Prop := ∀ ev ∈ evs, ev.isLog = true

/-- The counts that tie the trace to the table: the keys are distinct, and the numbers
of servers constructed, goroutines launched and wait-group additions all equal the
number of entries. -/
def Inv (st : gitService × List Event) : Prop :=
  (st.1.mappings.map Prod.fst).Nodup ∧
  st.2.countP Event.isNewServer = st.1.mappings.length ∧
  st.2.countP Event.isGo = st.1.mappings.length ∧
  st.2.countP Event.isWgAdd = st.1.mappings.length ∧
  st.1.wg = st.1.mappings.length

/-- The mapping `AddGit` builds for a port and a staging path. -/
def newMapping (port : Int) (p : Path) : gitMapping :=
  { port := port,
    server :=
      { addr := "0.0.0.0:" ++ toString port,
        handler := ⟨{ path := p, debug := false, preCreate := "gittp.UseGithubRepoNames",
                      preReceive := "gittp.MasterOnly" }⟩ } }

/-- The events of the miss branch of `AddGit`, after the snapshot's log lines. -/
def startEvents (port : Int) (p : Path) : List Event :=
  [.newGitServer (newMapping port p).server.handler.config, .getFreePort,
   .newHTTPServer (newMapping port p).server.addr, .wgAdd 1,
   .debugf "Starting git server path=%s port=%d" [pathString p, toString port],
   .go (newMapping port p).server]

/-! ## Overlapping calls

`AddGit` takes no lock.  Between the table lookup (source lines 46-52) and the table
write (lines 53-79) of one call, another call can run; the two halves are the atomic
steps of the model below, and what both halves read and write is shared. -/

/-- What all in-flight calls share: the service, the file system, the trace and the
goroutines started so far. -/
structure Shared where
  gs : gitService
  fs : FS
  events : List Event
  spawned : List (HttpServer × Error)

/-- Where one `AddGit` call stands. -/
inductive Thread where
  /-- Called, nothing executed yet. -/
  | ready (tempDir : Path) (e : Env) (path : Path)
  /-- Lines 46-52 done: the snapshot succeeded and the lookup at `path` missed. -/
  | missed (e : Env) (path : Path)
  /-- Returned or panicked. -/
  | finished (ret : Outcome (Int × Option Error))

/-- One atomic step of a call: lines 46-52 for a `ready` call, lines 53-79 for a call
that `missed`. -/
def Thread.step (sh : Shared) : Thread → Thread × Shared
  | .ready tempDir e path =>
    let snap := createTmpRepository tempDir sh.fs e path
    let sh1 : Shared := { sh with fs := snap.fs, events := sh.events ++ snap.events }
    match snap.ret with
    | .panicked msg => (.finished (.panicked msg), sh1)
    | .returned (_, some err) => (.finished (.returned (0, some err)), sh1)
    | .returned (path, none) =>
      match mapLookup sh.gs.mappings path with
      | some mapping => (.finished (.returned (mapping.port, none)), sh1)
      | none => (.missed e path, sh1)
  | .missed e path =>
    let config : ServerConfig :=
      { path := path, debug := false,
        preCreate := "gittp.UseGithubRepoNames", preReceive := "gittp.MasterOnly" }
    match e.newGitServerErr with
    | some err =>
      (.finished (.returned (0, some err)),
        { sh with events := sh.events ++ [.newGitServer config] })
    | none =>
      let handle : Handler := ⟨config⟩
      match e.freePort.2 with
      | some err =>
        (.finished (.returned (0, some err)),
          { sh with events := sh.events ++ [.newGitServer config, .getFreePort] })
      | none =>
        let port := e.freePort.1
        let r : gitMapping :=
          { port := port, server := { addr := "0.0.0.0:" ++ toString port, handler := handle } }
        (.finished (.returned (port, none)),
          { gs := { mappings := mapInsert sh.gs.mappings path r, wg := sh.gs.wg + 1 },
            fs := sh.fs,
            events := sh.events ++ [.newGitServer config, .getFreePort,
              .newHTTPServer r.server.addr, .wgAdd 1,
              .debugf "Starting git server path=%s port=%d" [pathString path, toString port],
              .go r.server],
            spawned := sh.spawned ++ [(r.server, e.listenResult)] })
  | .finished ret => (.finished ret, sh)

/-- What a call has returned, once it has. -/
def Thread.result : Thread → Option (Outcome (Int × Option Error))
  | .finished ret => some ret
  | _ => none

/-- The calls take steps in the order the schedule names them. -/
def runSchedule (sh : Shared) (ts : List Thread) : List Nat → Shared × List Thread
  | [] => (sh, ts)
  | i :: rest =>
    match ts[i]? with
    | none => runSchedule sh ts rest
    | some t => runSchedule (t.step sh).2 (ts.set i (t.step sh).1) rest

/-- Calls that do not overlap: each takes both its steps before the next begins. -/
def runSerial (sh : Shared) : List Thread → Shared × List Thread
  | [] => (sh, [])
  | t :: ts =>
    ((runSerial ((t.step sh).1.step (t.step sh).2).2 ts).1,
      ((t.step sh).1.step (t.step sh).2).1
        :: (runSerial ((t.step sh).1.step (t.step sh).2).2 ts).2)

/-- The schedule in which `n` calls, numbered from `start`, do not overlap: each is
named twice in a row. -/
def serialSchedule (start : Nat) : Nat → List Nat
  | 0 => []
  | n + 1 => start :: start :: serialSchedule (start + 1) n

/-- A fresh service in a given file system. -/
def Shared.init (fs : FS) : Shared := { gs := New, fs := fs, events := [], spawned := [] }

/-- The ports handed back without error by the calls of a pool. -/
def portsReturned (ts : List Thread) : List Int :=
  ts.filterMap (fun t =>
    match t.result with
    | some (.returned (port, none)) => some port
    | _ => none)

/-! ## Sample world -/

/-- Collaborators that all succeed; the allocator answers `port`. -/
def okEnv (port : Int) : Env :=
  { removeStaging := .ok, copy := .ok, removeGit := .ok,
    initErr := none,
    initWrites := fun q => if q = ["HEAD"] then some "ref: refs/heads/master" else none,
    worktreeErr := none,
    addGlobErr := none, addGlobWrites := fun q => if q = ["index"] then some "DIRC" else none,
    commitErr := none,
    commitWrites := fun q => if q = ["refs", "heads", "master"] then some "c0ffee" else none,
    newGitServerErr := none, freePort := (port, none),
    listenResult := "http: Server closed" }

/-- A file system with two source directories, one of them a git checkout. -/
def sampleFS : FS := fun q =>
  if q = ["src", "a.txt"] then some "A"
  else if q = ["src", ".git", "HEAD"] then some "ref: refs/heads/old"
  else if q = ["src", ".git", "objects", "ab"] then some "blob"
  else if q = ["other", "b.txt"] then some "B"
  else if q = ["tmp", "vulcan-local-tmp-repository", "stale.txt"] then some "stale"
  else none

/-- A world in which `git.PlainInit` fails: the staging directory, copied from a
read-only source directory that holds no `.git`, does not accept a new `.git` entry
(removing the absent `.git` reports no error). -/
def initFailEnv : Env :=
  { okEnv 8080 with
    initErr := some "mkdir /tmp/vulcan-local-tmp-repository/.git: permission denied" }

/-- A world in which the port handed out by the allocator is taken again before the
accept loop binds it. -/
def bindFailEnv : Env :=
  { okEnv 8080 with
    listenResult := "listen tcp 0.0.0.0:8080: bind: address already in use" }

/-- A world in which the allocator fails. -/
def noPortEnv : Env :=
  { okEnv 8080 with freePort := (0, some "listen tcp :0: socket: too many open files") }

/-- What the repository steps of one call write at a path below `.git`: the commit's
files over those of `AddGlob` (when it succeeded) over those of `PlainInit`. -/
def gitWrites (e : Env) (q : Path) : Option String :=
  match e.commitWrites q with
  | some c => some c
  | none =>
    match (match e.addGlobErr with | some _ => none | none => e.addGlobWrites q) with
    | some c => some c
    | none => e.initWrites q

/-- A file system whose source checkout holds a pack file in a read-only directory
`.git/objects/pack`; the copy keeps that mode. -/
def packedFS : FS := fun q =>
  if q = ["src", "a.txt"] then some "A"
  else if q = ["src", ".git", "HEAD"] then some "ref: refs/heads/old"
  else if q = ["src", ".git", "objects", "pack", "pack-1.pack"] then some "PACK"
  else if q = ["tmp", "vulcan-local-tmp-repository", "stale.txt"] then some "stale"
  else none

/-- A world in which the removal of the copied `.git` cannot unlink the pack file, removes
everything else and returns the error; every other step succeeds. -/
def residueEnv : Env :=
  { okEnv 8080 with
    removeGit := .failed
      "unlinkat /tmp/vulcan-local-tmp-repository/.git/objects/pack/pack-1.pack: permission denied"
      (fun q => decide
        (q = ["tmp", "vulcan-local-tmp-repository", ".git", "objects", "pack", "pack-1.pack"])) }

/-- Two calls for the same directory, in flight together. -/
def twoCalls : List Thread :=
  [.ready ["tmp"] (okEnv 8080) ["src"], .ready ["tmp"] (okEnv 9090) ["src"]]

end GitService


namespace GitService

/-! ## Basic facts -/

theorem createTmpRepository_ok_path {tempDir : Path} {fs : FS} {e : Env} {path p : Path}
    (h : (createTmpRepository tempDir fs e path).ret = .returned (p, none)) :
    p = stagingPath tempDir := by
  simp only [createTmpRepository] at h
  simp only [stagingPath]
  split at h
  · simp at h
  · split at h
    · simp at h
    · split at h
      · simp at h
      · simp at h
      · simp at h
      · split at h
        · simp at h
        · simp at h; exact h.symm

theorem createTmpRepository_events_log (tempDir : Path) (fs : FS) (e : Env) (path : Path) :
    startsNothing (createTmpRepository tempDir fs e path).events := by
  simp only [createTmpRepository, startsNothing]
  split
  · simp
  · split
    · simp [Event.isLog]
    · split
      · simp [Event.isLog]
      · simp [Event.isLog]
      · simp [Event.isLog]
      · split <;> simp [Event.isLog]

theorem mapLookup_mapInsert_self (m : List (Path × gitMapping)) (k : Path) (v : gitMapping) :
    mapLookup (mapInsert m k v) k = some v := by
  simp [mapInsert, mapLookup]

/-- A call whose snapshot succeeds and whose identity is already in the table returns
the recorded port and changes nothing. -/
theorem AddGit_hit {tempDir : Path} {gs : gitService} {fs : FS} {e : Env} {path p : Path}
    {m : gitMapping}
    (hs : (createTmpRepository tempDir fs e path).ret = .returned (p, none))
    (hm : mapLookup gs.mappings p = some m) :
    (AddGit tempDir gs fs e path).ret = .returned (m.port, none) ∧
    (AddGit tempDir gs fs e path).gs = gs ∧
    (AddGit tempDir gs fs e path).spawned = [] ∧
    (AddGit tempDir gs fs e path).events = (createTmpRepository tempDir fs e path).events := by
  simp only [AddGit, hs, hm]
  simp

/-- A call that returns a port without error leaves an entry with that port at the
staging path. -/
theorem AddGit_ok_recorded {tempDir : Path} {gs : gitService} {fs : FS} {e : Env} {path : Path}
    {P : Int} (h : (AddGit tempDir gs fs e path).ret = .returned (P, none)) :
    (createTmpRepository tempDir fs e path).ret = .returned (stagingPath tempDir, none) ∧
    ∃ m, mapLookup (AddGit tempDir gs fs e path).gs.mappings (stagingPath tempDir) = some m ∧
      m.port = P := by
  cases hs : (createTmpRepository tempDir fs e path).ret with
  | panicked msg => simp [AddGit, hs] at h
  | returned pe =>
    obtain ⟨p, err⟩ := pe
    cases err with
    | some err => simp [AddGit, hs] at h
    | none =>
      have hp := createTmpRepository_ok_path hs
      subst hp
      refine ⟨rfl, ?_⟩
      cases hm : mapLookup gs.mappings (stagingPath tempDir) with
      | some m =>
        simp [AddGit, hs, hm] at h ⊢
        exact h
      | none =>
        cases hg : e.newGitServerErr with
        | some err => simp [AddGit, hs, hm, hg] at h
        | none =>
          cases hf : e.freePort.2 with
          | some err => simp [AddGit, hs, hm, hg, hf] at h
          | none =>
            simp [AddGit, hs, hm, hg, hf] at h ⊢
            simp [mapLookup_mapInsert_self, h]


/-! ## Deduplication -/

/-- C1: for every directory `D` and every state of the service, if `AddGit(D)` returns
port `P` without error and a second `AddGit(D)` also succeeds, the second call returns
`P`, leaves the table and the wait group as they were, asks the allocator for no port,
constructs no server and launches no accept loop. -/
theorem addGit_twice_same_port (tempDir : Path) (gs : gitService) (fs1 fs2 : FS) (e1 e2 : Env)
    (D : Path) (P P2 : Int)
    (h1 : (AddGit tempDir gs fs1 e1 D).ret = .returned (P, none))
    (h2 : (AddGit tempDir (AddGit tempDir gs fs1 e1 D).gs fs2 e2 D).ret = .returned (P2, none)) :
    P2 = P ∧
    (AddGit tempDir (AddGit tempDir gs fs1 e1 D).gs fs2 e2 D).gs.mappings
      = (AddGit tempDir gs fs1 e1 D).gs.mappings ∧
    (AddGit tempDir (AddGit tempDir gs fs1 e1 D).gs fs2 e2 D).gs.wg
      = (AddGit tempDir gs fs1 e1 D).gs.wg ∧
    Event.getFreePort ∉ (AddGit tempDir (AddGit tempDir gs fs1 e1 D).gs fs2 e2 D).events ∧
    (∀ a, Event.newHTTPServer a ∉
      (AddGit tempDir (AddGit tempDir gs fs1 e1 D).gs fs2 e2 D).events) ∧
    (∀ srv, Event.go srv ∉ (AddGit tempDir (AddGit tempDir gs fs1 e1 D).gs fs2 e2 D).events) ∧
    (AddGit tempDir (AddGit tempDir gs fs1 e1 D).gs fs2 e2 D).spawned = [] := by
  obtain ⟨_, m, hm, hmP⟩ := AddGit_ok_recorded h1
  obtain ⟨hs2, _⟩ := AddGit_ok_recorded h2
  obtain ⟨hret, hgs, hsp, hev⟩ := AddGit_hit hs2 hm
  have hlog := createTmpRepository_events_log tempDir fs2 e2 D
  rw [hret] at h2
  simp only [Outcome.returned.injEq, Prod.mk.injEq, and_true] at h2
  refine ⟨by rw [← h2, hmP], by rw [hgs], by rw [hgs], ?_, ?_, ?_, hsp⟩
  · rw [hev]; intro hmem; exact absurd (hlog _ hmem) (by simp [Event.isLog])
  · rw [hev]; intro a hmem; exact absurd (hlog _ hmem) (by simp [Event.isLog])
  · rw [hev]; intro srv hmem; exact absurd (hlog _ hmem) (by simp [Event.isLog])

/-- Witness for C1: the second call is answered 8080 although the allocator would now
hand out 9090. -/
theorem addGit_twice_same_port_witness :
    (8080 : Int) = 8080 ∧
    (AddGit ["tmp"] (AddGit ["tmp"] New sampleFS (okEnv 8080) ["src"]).gs sampleFS (okEnv 9090)
        ["src"]).spawned = [] :=
  have h := addGit_twice_same_port ["tmp"] New sampleFS sampleFS (okEnv 8080) (okEnv 9090)
    ["src"] 8080 8080 (by decide) (by decide)
  ⟨h.1, h.2.2.2.2.2.2⟩


/-! ## What one call does to the service -/

theorem mapLookup_none_filter (m : List (Path × gitMapping)) (k : Path)
    (h : mapLookup m k = none) : m.filter (fun kv => !decide (kv.1 = k)) = m := by
  induction m with
  | nil => rfl
  | cons kv rest ih =>
    obtain ⟨a, b⟩ := kv
    by_cases hak : a = k
    · simp [mapLookup, hak] at h
    · simp only [mapLookup, hak, if_false] at h
      simp [List.filter, hak, ih h]

theorem mapLookup_none_not_mem_keys (m : List (Path × gitMapping)) (k : Path)
    (h : mapLookup m k = none) : k ∉ m.map Prod.fst := by
  induction m with
  | nil => simp
  | cons kv rest ih =>
    obtain ⟨a, b⟩ := kv
    by_cases hak : a = k
    · simp [mapLookup, hak] at h
    · simp only [mapLookup, hak, if_false] at h
      have := ih h
      simp only [List.map_cons, List.mem_cons, not_or]
      exact ⟨fun h' => hak h'.symm, this⟩

/-- Every `AddGit` call either leaves the service untouched and starts nothing beyond a
possible handler construction and port request, or it missed the table at the staging
path and recorded, counted and launched exactly one new server there. -/
theorem AddGit_cases (tempDir : Path) (gs : gitService) (fs : FS) (e : Env) (path : Path) :
    ((AddGit tempDir gs fs e path).gs = gs ∧ (AddGit tempDir gs fs e path).spawned = [] ∧
      (∀ ev ∈ (AddGit tempDir gs fs e path).events,
        ev.isNewServer = false ∧ ev.isGo = false ∧ ev.isWgAdd = false ∧ ev.isStop = false) ∧
      ∀ P, (AddGit tempDir gs fs e path).ret = .returned (P, none) →
        ∃ m, mapLookup gs.mappings (stagingPath tempDir) = some m ∧ m.port = P) ∨
    (mapLookup gs.mappings (stagingPath tempDir) = none ∧
      (createTmpRepository tempDir fs e path).ret = .returned (stagingPath tempDir, none) ∧
      e.newGitServerErr = none ∧ e.freePort.2 = none ∧
      (AddGit tempDir gs fs e path).ret = .returned (e.freePort.1, none) ∧
      (AddGit tempDir gs fs e path).gs =
        { mappings := (stagingPath tempDir, newMapping e.freePort.1 (stagingPath tempDir))
            :: gs.mappings,
          wg := gs.wg + 1 } ∧
      (AddGit tempDir gs fs e path).events =
        (createTmpRepository tempDir fs e path).events
          ++ startEvents e.freePort.1 (stagingPath tempDir) ∧
      (AddGit tempDir gs fs e path).spawned =
        [((newMapping e.freePort.1 (stagingPath tempDir)).server, e.listenResult)]) := by
  have hlog := createTmpRepository_events_log tempDir fs e path
  have hlog' : ∀ ev ∈ (createTmpRepository tempDir fs e path).events,
      ev.isNewServer = false ∧ ev.isGo = false ∧ ev.isWgAdd = false ∧ ev.isStop = false := by
    intro ev hev
    have := hlog ev hev
    cases ev <;> simp_all [Event.isLog, Event.isNewServer, Event.isGo, Event.isWgAdd,
      Event.isStop]
  cases hs : (createTmpRepository tempDir fs e path).ret with
  | panicked msg => left; simp [AddGit, hs]; exact hlog'
  | returned pe =>
    obtain ⟨p, err⟩ := pe
    cases err with
    | some err => left; simp [AddGit, hs]; exact hlog'
    | none =>
      have hp := createTmpRepository_ok_path hs
      subst hp
      cases hm : mapLookup gs.mappings (stagingPath tempDir) with
      | some m => left; simp [AddGit, hs, hm]; exact hlog'
      | none =>
        cases hg : e.newGitServerErr with
        | some err =>
          left
          simp [AddGit, hs, hm, hg]
          intro ev hev
          rcases hev with hev | hev
          · exact hlog' ev hev
          · subst hev; simp [Event.isNewServer, Event.isGo, Event.isWgAdd, Event.isStop]
        | none =>
          cases hf : e.freePort.2 with
          | some err =>
            left
            simp [AddGit, hs, hm, hg, hf]
            intro ev hev
            rcases hev with hev | hev | hev
            · exact hlog' ev hev
            · subst hev; simp [Event.isNewServer, Event.isGo, Event.isWgAdd, Event.isStop]
            · subst hev; simp [Event.isNewServer, Event.isGo, Event.isWgAdd, Event.isStop]
          | none =>
            right
            simp [AddGit, hs, hm, hg, hf, mapInsert, mapLookup_none_filter _ _ hm,
              newMapping, startEvents]


/-! ## Invariants of call sequences -/

theorem countP_eq_zero_of_forall {p : Event → Bool} {evs : List Event}
    (h : ∀ ev ∈ evs, p ev = false) : evs.countP p = 0 := by
  rw [List.countP_eq_zero]
  intro ev hev
  simp [h ev hev]

theorem Shutdown_events_counts (gs : gitService) (stop : HttpServer → Option Error) :
    (Shutdown gs stop).events.countP Event.isNewServer = 0 ∧
    (Shutdown gs stop).events.countP Event.isGo = 0 ∧
    (Shutdown gs stop).events.countP Event.isWgAdd = 0 := by
  refine ⟨?_, ?_, ?_⟩ <;>
  · apply countP_eq_zero_of_forall
    intro ev hev
    simp only [Shutdown, List.mem_append, List.mem_map, List.mem_singleton] at hev
    rcases hev with ⟨kv, _, rfl⟩ | rfl <;> rfl

theorem snapshot_counts (tempDir : Path) (fs : FS) (e : Env) (path : Path) :
    (createTmpRepository tempDir fs e path).events.countP Event.isNewServer = 0 ∧
    (createTmpRepository tempDir fs e path).events.countP Event.isGo = 0 ∧
    (createTmpRepository tempDir fs e path).events.countP Event.isWgAdd = 0 := by
  have hlog := createTmpRepository_events_log tempDir fs e path
  refine ⟨?_, ?_, ?_⟩ <;>
  · apply countP_eq_zero_of_forall
    intro ev hev
    have := hlog ev hev
    cases ev <;> first | rfl | simp [Event.isLog] at this

theorem startEvents_counts (port : Int) (p : Path) :
    (startEvents port p).countP Event.isNewServer = 1 ∧
    (startEvents port p).countP Event.isGo = 1 ∧
    (startEvents port p).countP Event.isWgAdd = 1 := by
  refine ⟨?_, ?_, ?_⟩ <;> rfl

theorem exec_inv (c : Call) (gs : gitService) (evs : List Event) (h : Inv (gs, evs)) :
    Inv ((c.exec gs).1, evs ++ (c.exec gs).2) := by
  obtain ⟨hnd, hns, hgo, hwa, hwg⟩ := h
  cases c with
  | shutdown stop =>
    obtain ⟨h1, h2, h3⟩ := Shutdown_events_counts gs stop
    simp only [Inv, Call.exec, List.countP_append, h1, h2, h3, add_zero]
    exact ⟨hnd, hns, hgo, hwa, hwg⟩
  | addGit tempDir fs e path =>
    rcases AddGit_cases tempDir gs fs e path with ⟨hgs, _, hev, _⟩ | ⟨hm, _, _, _, _, hgs, hev, _⟩
    · simp only [Inv, Call.exec, List.countP_append, hgs,
        countP_eq_zero_of_forall (fun ev h => (hev ev h).1),
        countP_eq_zero_of_forall (fun ev h => (hev ev h).2.1),
        countP_eq_zero_of_forall (fun ev h => (hev ev h).2.2.1), add_zero]
      exact ⟨hnd, hns, hgo, hwa, hwg⟩
    · obtain ⟨z1, z2, z3⟩ := snapshot_counts tempDir fs e path
      obtain ⟨s1, s2, s3⟩ := startEvents_counts e.freePort.1 (stagingPath tempDir)
      simp only [Inv, Call.exec, hgs, hev, List.countP_append, z1, z2, z3, s1, s2, s3, zero_add,
        List.map_cons, List.length_cons, List.nodup_cons]
      refine ⟨⟨mapLookup_none_not_mem_keys _ _ hm, hnd⟩, ?_, ?_, ?_, ?_⟩
      · simpa using hns
      · simpa using hgo
      · simpa using hwa
      · simpa using hwg

theorem run_inv (calls : List Call) (st : gitService × List Event) (h : Inv st) :
    Inv (run st calls) := by
  induction calls generalizing st with
  | nil => exact h
  | cons c cs ih =>
    simp only [run, List.foldl_cons]
    exact ih _ (exec_inv c st.1 st.2 h)

theorem Inv_New : Inv (New, []) := by
  simp [Inv, New]

/-- An entry, once in the table, is still there with the same port and server after
any call. -/
theorem exec_lookup (c : Call) (gs : gitService) (k : Path) (m : gitMapping)
    (h : mapLookup gs.mappings k = some m) : mapLookup (c.exec gs).1.mappings k = some m := by
  cases c with
  | shutdown stop => exact h
  | addGit tempDir fs e path =>
    rcases AddGit_cases tempDir gs fs e path with ⟨hgs, _⟩ | ⟨hm, _, _, _, _, hgs, _⟩
    · simp only [Call.exec, hgs]; exact h
    · have hne : stagingPath tempDir ≠ k := by
        intro heq; rw [heq, h] at hm; cases hm
      simp only [Call.exec, hgs, mapLookup, hne, if_false]
      exact h

theorem run_lookup (calls : List Call) (st : gitService × List Event) (k : Path)
    (m : gitMapping) (h : mapLookup st.1.mappings k = some m) :
    mapLookup (run st calls).1.mappings k = some m := by
  induction calls generalizing st with
  | nil => exact h
  | cons c cs ih =>
    simp only [run, List.foldl_cons]
    exact ih _ (exec_lookup c st.1 k m h)

/-- C3: in every state reached from `New` by a sequence of `AddGit` and `Shutdown`
calls, the table has one entry per identity (distinct keys), the numbers of servers
constructed, accept loops launched and wait-group additions all equal the number of
entries, and an entry keeps its port and server through every later call. -/
theorem one_server_per_identity (calls later : List Call) :
    ((run (New, []) calls).1.mappings.map Prod.fst).Nodup ∧
    (run (New, []) calls).2.countP Event.isNewServer = (run (New, []) calls).1.mappings.length ∧
    (run (New, []) calls).2.countP Event.isGo = (run (New, []) calls).1.mappings.length ∧
    (run (New, []) calls).2.countP Event.isWgAdd = (run (New, []) calls).1.mappings.length ∧
    (run (New, []) calls).1.wg = (run (New, []) calls).1.mappings.length ∧
    ∀ k m, mapLookup (run (New, []) calls).1.mappings k = some m →
      mapLookup (run (run (New, []) calls) later).1.mappings k = some m := by
  obtain ⟨h1, h2, h3, h4, h5⟩ := run_inv calls (New, []) Inv_New
  exact ⟨h1, h2, h3, h4, h5, fun k m h => run_lookup later _ k m h⟩


/-! ## Shutdown -/

/-- C7: for every state, `Shutdown` issues one stop per tracked mapping, to that
mapping's server and in table order, then waits on the wait group, whose count in a
state reached from `New` is the number of accept loops launched; on a fresh service it
issues no stop and waits on zero; it returns normally whatever the stops return. -/
theorem shutdown_stops_every_server (gs : gitService) (stop : HttpServer → Option Error)
    (calls : List Call) :
    (Shutdown gs stop).ret = .returned () ∧
    (Shutdown gs stop).events =
      gs.mappings.map (fun kv => Event.serverShutdown kv.2.server (stop kv.2.server))
        ++ [.wgWait gs.wg] ∧
    (Shutdown gs stop).events.countP Event.isStop = gs.mappings.length ∧
    (Shutdown (run (New, []) calls).1 stop).events.getLast?
      = some (.wgWait ((run (New, []) calls).2.countP Event.isGo)) ∧
    (Shutdown New stop).events = [.wgWait 0] := by
  refine ⟨rfl, rfl, ?_, ?_, rfl⟩
  · simp only [Shutdown, List.countP_append]
    have : ∀ l : List (Path × gitMapping),
        (l.map (fun kv => Event.serverShutdown kv.2.server (stop kv.2.server))).countP
          Event.isStop = l.length := by
      intro l
      induction l with
      | nil => rfl
      | cons kv rest ih => simp [List.countP_cons, Event.isStop, ih]
    rw [this]
    simp [List.countP_cons, Event.isStop]
  · obtain ⟨_, _, h3, _, h5⟩ := run_inv calls (New, []) Inv_New
    simp only [Shutdown, List.getLast?_append, List.getLast?_singleton, h3, h5]
    rfl

/-- Shutdown hands the table back as it found it. -/
theorem Shutdown_gs (gs : gitService) (stop : HttpServer → Option Error) :
    (Shutdown gs stop).gs = gs := rfl

theorem mapLookup_some_mem (m : List (Path × gitMapping)) (k : Path) (v : gitMapping)
    (h : mapLookup m k = some v) : (k, v) ∈ m := by
  induction m with
  | nil => simp [mapLookup] at h
  | cons kv rest ih =>
    obtain ⟨a, b⟩ := kv
    by_cases hak : a = k
    · simp only [mapLookup, hak, if_true, Option.some.injEq] at h
      simp [hak, h]
    · simp only [mapLookup, hak, if_false] at h
      exact List.mem_cons_of_mem _ (ih h)

/-- C10: `Shutdown` removes no entry, so with a mapping of port `P` recorded at the
staging path, an `AddGit` made after `Shutdown` whose snapshot succeeds returns `P`
with a nil error, constructs no server and launches no accept loop, although
`Shutdown` has stopped the server of that mapping. -/
theorem addGit_after_shutdown_returns_stale_port (tempDir : Path) (gs : gitService)
    (stop : HttpServer → Option Error) (fs : FS) (e : Env) (D p : Path) (m : gitMapping)
    (hm : mapLookup gs.mappings (stagingPath tempDir) = some m)
    (hs : (createTmpRepository tempDir fs e D).ret = .returned (p, none)) :
    (Shutdown gs stop).gs.mappings = gs.mappings ∧
    Event.serverShutdown m.server (stop m.server) ∈ (Shutdown gs stop).events ∧
    (AddGit tempDir (Shutdown gs stop).gs fs e D).ret = .returned (m.port, none) ∧
    (AddGit tempDir (Shutdown gs stop).gs fs e D).gs = gs ∧
    (AddGit tempDir (Shutdown gs stop).gs fs e D).spawned = [] ∧
    startsNothing (AddGit tempDir (Shutdown gs stop).gs fs e D).events := by
  have hp := createTmpRepository_ok_path hs
  subst hp
  have hhit : (AddGit tempDir gs fs e D).ret = .returned (m.port, none) ∧
      (AddGit tempDir gs fs e D).gs = gs ∧ (AddGit tempDir gs fs e D).spawned = [] ∧
      (AddGit tempDir gs fs e D).events = (createTmpRepository tempDir fs e D).events :=
    AddGit_hit hs hm
  obtain ⟨hret, hgs, hsp, hev⟩ := hhit
  refine ⟨rfl, ?_, hret, hgs, hsp, ?_⟩
  · simp only [Shutdown, List.mem_append, List.mem_map]
    exact Or.inl ⟨(stagingPath tempDir, m), mapLookup_some_mem _ _ _ hm, rfl⟩
  · rw [Shutdown_gs, hev]
    exact createTmpRepository_events_log tempDir fs e D

/-- Witness for C10: a service that served port 8080, was shut down, and is asked
again while the allocator would answer 9090. -/
theorem addGit_after_shutdown_returns_stale_port_witness :
    (AddGit ["tmp"]
      (Shutdown (AddGit ["tmp"] New sampleFS (okEnv 8080) ["src"]).gs (fun _ => none)).gs
      sampleFS (okEnv 9090) ["other"]).ret = .returned (8080, none) :=
  (addGit_after_shutdown_returns_stale_port ["tmp"]
    (AddGit ["tmp"] New sampleFS (okEnv 8080) ["src"]).gs (fun _ => none) sampleFS (okEnv 9090)
    ["other"] ["tmp", "vulcan-local-tmp-repository"] (newMapping 8080 (stagingPath ["tmp"]))
    (by decide) (by decide)).2.2.1

/-! ## The fixed staging path -/

theorem exec_keys (tempDir : Path) (c : Call) (hc : c.usesTempDir tempDir) (gs : gitService)
    (h : ∀ k ∈ gs.mappings.map Prod.fst, k = stagingPath tempDir) :
    ∀ k ∈ (c.exec gs).1.mappings.map Prod.fst, k = stagingPath tempDir := by
  cases c with
  | shutdown stop => exact h
  | addGit t fs e path =>
    simp only [Call.usesTempDir] at hc
    subst hc
    rcases AddGit_cases t gs fs e path with ⟨hgs, _⟩ | ⟨_, _, _, _, _, hgs, _⟩
    · simp only [Call.exec, hgs]; exact h
    · simp only [Call.exec, hgs, List.map_cons, List.mem_cons]
      rintro k (rfl | hk)
      · rfl
      · exact h k hk

theorem run_keys (tempDir : Path) (calls : List Call)
    (hc : ∀ c ∈ calls, c.usesTempDir tempDir) (st : gitService × List Event)
    (h : ∀ k ∈ st.1.mappings.map Prod.fst, k = stagingPath tempDir) :
    ∀ k ∈ (run st calls).1.mappings.map Prod.fst, k = stagingPath tempDir := by
  induction calls generalizing st with
  | nil => exact h
  | cons c cs ih =>
    simp only [run, List.foldl_cons]
    exact ih (fun c' hc' => hc c' (List.mem_cons_of_mem _ hc')) _
      (exec_keys tempDir c (hc c (List.mem_cons_self _ _)) st.1 h)

theorem length_le_one_of_nodup_const {α : Type} (l : List α) (a : α) (hnd : l.Nodup)
    (h : ∀ x ∈ l, x = a) : l.length ≤ 1 := by
  match l, hnd, h with
  | [], _, _ => simp
  | [_], _, _ => simp
  | x :: y :: rest, hnd, h =>
    have hx := h x (by simp)
    have hy := h y (by simp)
    simp only [List.nodup_cons, List.mem_cons, not_or] at hnd
    exact absurd (hx.trans hy.symm) hnd.1.1

/-- C9: the identity does not depend on the source path.  With `os.TempDir()` fixed,
every successful `createTmpRepository` returns the one staging path, for every source
path; so once an `AddGit(D1)` has returned port `P`, after any further calls an
`AddGit(D2)` whose snapshot succeeds returns `P`, changes nothing and starts no server;
and the table of a service built by `New` never holds more than one entry. -/
theorem identity_ignores_source_path (tempDir : Path) (gs : gitService) (fs1 fs2 : FS)
    (e1 e2 : Env) (D1 D2 p : Path) (P : Int) (between calls : List Call)
    (h1 : (AddGit tempDir gs fs1 e1 D1).ret = .returned (P, none))
    (hs : (createTmpRepository tempDir fs2 e2 D2).ret = .returned (p, none))
    (hc : ∀ c ∈ calls, c.usesTempDir tempDir) :
    p = stagingPath tempDir ∧
    (AddGit tempDir (run ((AddGit tempDir gs fs1 e1 D1).gs, []) between).1 fs2 e2 D2).ret
      = .returned (P, none) ∧
    (AddGit tempDir (run ((AddGit tempDir gs fs1 e1 D1).gs, []) between).1 fs2 e2 D2).gs
      = (run ((AddGit tempDir gs fs1 e1 D1).gs, []) between).1 ∧
    (AddGit tempDir (run ((AddGit tempDir gs fs1 e1 D1).gs, []) between).1 fs2 e2 D2).spawned
      = [] ∧
    startsNothing
      (AddGit tempDir (run ((AddGit tempDir gs fs1 e1 D1).gs, []) between).1 fs2 e2 D2).events ∧
    (run (New, []) calls).1.mappings.length ≤ 1 := by
  have hp := createTmpRepository_ok_path hs
  subst hp
  obtain ⟨_, m, hm, hmP⟩ := AddGit_ok_recorded h1
  have hm' := run_lookup between ((AddGit tempDir gs fs1 e1 D1).gs, []) _ m hm
  obtain ⟨hret, hgs, hsp, hev⟩ := AddGit_hit hs hm'
  refine ⟨rfl, by rw [hret, hmP], hgs, hsp, ?_, ?_⟩
  · rw [hev]; exact createTmpRepository_events_log tempDir fs2 e2 D2
  · have hnd := (run_inv calls (New, []) Inv_New).1
    have hk := run_keys tempDir calls hc (New, []) (by simp [New])
    have := length_le_one_of_nodup_const _ _ hnd hk
    simpa using this

/-- Witness for C9: two different source paths, one port. -/
theorem identity_ignores_source_path_witness :
    (AddGit ["tmp"] (run ((AddGit ["tmp"] New sampleFS (okEnv 8080) ["src"]).gs, []) []).1
      sampleFS (okEnv 9090) ["other"]).ret = .returned (8080, none) ∧
    (run (New, []) [.addGit ["tmp"] sampleFS (okEnv 8080) ["src"],
      .addGit ["tmp"] sampleFS (okEnv 9090) ["other"]]).1.mappings.length ≤ 1 :=
  have h := identity_ignores_source_path ["tmp"] New sampleFS sampleFS (okEnv 8080) (okEnv 9090)
    ["src"] ["other"] ["tmp", "vulcan-local-tmp-repository"] 8080 []
    [.addGit ["tmp"] sampleFS (okEnv 8080) ["src"],
      .addGit ["tmp"] sampleFS (okEnv 9090) ["other"]]
    (by decide) (by decide) (by simp [Call.usesTempDir])
  ⟨h.2.1, h.2.2.2.2.2⟩


/-! ## Failures of the snapshot -/

/-- The four snapshot failures the code checks are returned as the error of
`createTmpRepository`, and `AddGit` passes any such error on with port 0, an untouched
service and no server started. -/
theorem snapshot_error_surfaced (tempDir : Path) (gs : gitService) (fs : FS) (e : Env)
    (path p : Path) (err : Error)
    (h : (createTmpRepository tempDir fs e path).ret = .returned (p, some err)) :
    (AddGit tempDir gs fs e path).ret = .returned (0, some err) ∧
    (AddGit tempDir gs fs e path).gs = gs ∧
    (AddGit tempDir gs fs e path).spawned = [] ∧
    startsNothing (AddGit tempDir gs fs e path).events := by
  have hlog := createTmpRepository_events_log tempDir fs e path
  refine ⟨?_, ?_, ?_, ?_⟩
  · simp [AddGit, h]
  · simp [AddGit, h]
  · simp [AddGit, h]
  · simp only [AddGit, h]; exact hlog

theorem removeStaging_failure_returned (tempDir : Path) (fs : FS) (e : Env) (path : Path)
    (err : Error) (left : Path → Bool) (h : e.removeStaging = .failed err left) :
    (createTmpRepository tempDir fs e path).ret = .returned ([], some err) := by
  simp [createTmpRepository, h, removeAll]

theorem copy_failure_returned (tempDir : Path) (fs : FS) (e : Env) (path : Path)
    (err : Error) (done : Path → Bool) (h0 : e.removeStaging = .ok)
    (h : e.copy = .failed err done) :
    (createTmpRepository tempDir fs e path).ret = .returned ([], some err) := by
  simp [createTmpRepository, h0, h, removeAll, copyCopy]

theorem worktree_failure_returned (tempDir : Path) (fs : FS) (e : Env) (path : Path)
    (err : Error) (h0 : e.removeStaging = .ok) (h1 : e.copy = .ok) (h2 : e.initErr = none)
    (h : e.worktreeErr = some err) :
    (createTmpRepository tempDir fs e path).ret = .returned ([], some err) := by
  simp [createTmpRepository, h0, h1, h2, h, removeAll, copyCopy, plainInit, worktree]

theorem commit_failure_returned (tempDir : Path) (fs : FS) (e : Env) (path : Path)
    (err : Error) (h0 : e.removeStaging = .ok) (h1 : e.copy = .ok) (h2 : e.initErr = none)
    (h3 : e.worktreeErr = none) (h : e.commitErr = some err) :
    (createTmpRepository tempDir fs e path).ret = .returned ([], some err) := by
  simp [createTmpRepository, h0, h1, h2, h3, h, removeAll, copyCopy, plainInit, worktree, commit]

/-- Whenever `git.PlainInit` fails after a successful copy, its error is dropped and the
nil repository makes `createTmpRepository`, and with it `AddGit`, panic. -/
theorem init_failure_panics (tempDir : Path) (gs : gitService) (fs : FS) (e : Env)
    (path : Path) (err : Error) (h0 : e.removeStaging = .ok) (h1 : e.copy = .ok)
    (h : e.initErr = some err) :
    (createTmpRepository tempDir fs e path).ret =
      .panicked "runtime error: invalid memory address or nil pointer dereference" ∧
    (AddGit tempDir gs fs e path).ret =
      .panicked "runtime error: invalid memory address or nil pointer dereference" := by
  have hc : (createTmpRepository tempDir fs e path).ret =
      .panicked "runtime error: invalid memory address or nil pointer dereference" := by
    simp [createTmpRepository, h0, h1, h, removeAll, copyCopy, plainInit, worktree]
  exact ⟨hc, by simp [AddGit, hc]⟩

/-- C4, at a failing input: when `git.PlainInit` fails, neither `createTmpRepository`
nor `AddGit` returns that failure as an error; both end in a nil-pointer panic. -/
theorem init_failure_not_returned :
    initFailEnv.initErr =
      some "mkdir /tmp/vulcan-local-tmp-repository/.git: permission denied" ∧
    (createTmpRepository ["tmp"] sampleFS initFailEnv ["other"]).ret =
      .panicked "runtime error: invalid memory address or nil pointer dereference" ∧
    (AddGit ["tmp"] New sampleFS initFailEnv ["other"]).ret =
      .panicked "runtime error: invalid memory address or nil pointer dereference" ∧
    (∀ port err, (AddGit ["tmp"] New sampleFS initFailEnv ["other"]).ret
      ≠ .returned (port, some err)) := by
  refine ⟨rfl, by decide, by decide, ?_⟩
  intro port err h
  have : (AddGit ["tmp"] New sampleFS initFailEnv ["other"]).ret =
      .panicked "runtime error: invalid memory address or nil pointer dereference" := by decide
  rw [this] at h
  cases h

/-! ## Failures after the snapshot -/

/-- C5, counterexample: the listener cannot bind the port, and `AddGit` still returns
that port with a nil error; the bind error exists only inside the goroutine. -/
theorem bind_failure_not_surfaced :
    (AddGit ["tmp"] New sampleFS bindFailEnv ["src"]).spawned =
      [((newMapping 8080 ["tmp", "vulcan-local-tmp-repository"]).server,
        "listen tcp 0.0.0.0:8080: bind: address already in use")] ∧
    mapLookup New.mappings ["tmp", "vulcan-local-tmp-repository"] = none ∧
    (AddGit ["tmp"] New sampleFS bindFailEnv ["src"]).ret = .returned (8080, none) := by
  decide

/-- C5, amended: on a call that misses the table, a failure of the free-port allocator
is returned as the error of `AddGit`, with port 0, the service untouched and nothing
launched; when the allocator succeeds `AddGit` returns its port with a nil error
whatever `ListenAndServe` returns in the goroutine, whose body drops that value. -/
theorem allocator_failure_surfaced (tempDir : Path) (gs : gitService) (fs : FS) (e : Env)
    (path p : Path)
    (hs : (createTmpRepository tempDir fs e path).ret = .returned (p, none))
    (hm : mapLookup gs.mappings p = none) (hg : e.newGitServerErr = none) :
    (∀ err, e.freePort.2 = some err →
      (AddGit tempDir gs fs e path).ret = .returned (0, some err) ∧
      (AddGit tempDir gs fs e path).gs = gs ∧
      (AddGit tempDir gs fs e path).spawned = [] ∧
      ∀ srv, Event.go srv ∉ (AddGit tempDir gs fs e path).events) ∧
    (e.freePort.2 = none → ∀ bindErr : Error,
      (AddGit tempDir gs fs { e with listenResult := bindErr } path).ret
        = .returned (e.freePort.1, none) ∧
      (AddGit tempDir gs fs { e with listenResult := bindErr } path).spawned
        = [((newMapping e.freePort.1 p).server, bindErr)] ∧
      acceptLoop ((newMapping e.freePort.1 p).server, bindErr)
        = [.listenAndServe (newMapping e.freePort.1 p).server, .wgDone]) := by
  have hlog := createTmpRepository_events_log tempDir fs e path
  constructor
  · intro err hf
    refine ⟨?_, ?_, ?_, ?_⟩
    · simp [AddGit, hs, hm, hg, hf]
    · simp [AddGit, hs, hm, hg, hf]
    · simp [AddGit, hs, hm, hg, hf]
    · intro srv hmem
      simp only [AddGit, hs, hm, hg, hf, List.mem_append, List.mem_cons, List.mem_singleton,
        List.not_mem_nil, or_false] at hmem
      rcases hmem with hmem | hmem | hmem
      · exact absurd (hlog _ hmem) (by simp [Event.isLog])
      · cases hmem
      · cases hmem
  · intro hf bindErr
    have hp := createTmpRepository_ok_path hs
    subst hp
    have hs' : (createTmpRepository tempDir fs { e with listenResult := bindErr } path).ret
        = .returned (stagingPath tempDir, none) := hs
    rcases AddGit_cases tempDir gs fs { e with listenResult := bindErr } path with
      ⟨_, _, _, hP⟩ | ⟨_, _, _, _, hret, _, _, hsp⟩
    · exfalso
      have hret : (AddGit tempDir gs fs { e with listenResult := bindErr } path).ret
          = .returned (e.freePort.1, none) := by
        simp only [AddGit, hs', hm]
        simp [hg, hf]
      obtain ⟨m, hm', _⟩ := hP _ hret
      rw [hm] at hm'
      cases hm'
    · exact ⟨hret, hsp, rfl⟩

/-- Witness for C5 amended: an allocator out of descriptors. -/
theorem allocator_failure_surfaced_witness :
    (AddGit ["tmp"] New sampleFS noPortEnv ["src"]).ret
      = .returned (0, some "listen tcp :0: socket: too many open files") :=
  ((allocator_failure_surfaced ["tmp"] New sampleFS noPortEnv ["src"]
    ["tmp", "vulcan-local-tmp-repository"] (by decide) (by decide) (by decide)).1
    "listen tcp :0: socket: too many open files" (by decide)).1


/-! ## Distinct identities -/

/-- C2, counterexample: two different directories, snapshotted under two different
temporary directories and so with different identities, are both answered port 8080,
because the allocator hands out 8080 twice. -/
theorem distinct_identities_same_port :
    (["src"] : Path) ≠ ["other"] ∧
    (createTmpRepository ["tmp"] sampleFS (okEnv 8080) ["src"]).ret
      = .returned (["tmp", "vulcan-local-tmp-repository"], none) ∧
    (createTmpRepository ["var", "tmp"] sampleFS (okEnv 8080) ["other"]).ret
      = .returned (["var", "tmp", "vulcan-local-tmp-repository"], none) ∧
    (["tmp", "vulcan-local-tmp-repository"] : Path)
      ≠ ["var", "tmp", "vulcan-local-tmp-repository"] ∧
    (AddGit ["tmp"] New sampleFS (okEnv 8080) ["src"]).ret = .returned (8080, none) ∧
    (AddGit ["var", "tmp"] (AddGit ["tmp"] New sampleFS (okEnv 8080) ["src"]).gs sampleFS
      (okEnv 8080) ["other"]).ret = .returned (8080, none) := by
  decide

/-- C2, amended: for distinct directories whose snapshots yield distinct identities,
neither of them in the table beforehand, two successful calls each record their own
mapping at their own identity and each launch their own listener; each returns the
port the allocator gave to that call, so the two ports differ exactly when the
allocator's two answers differ. -/
theorem distinct_identities_own_listener (t1 t2 : Path) (gs : gitService) (fs1 fs2 : FS)
    (e1 e2 : Env) (D1 D2 id1 id2 : Path) (P1 P2 : Int) (_hD : D1 ≠ D2)
    (hs1 : (createTmpRepository t1 fs1 e1 D1).ret = .returned (id1, none))
    (hs2 : (createTmpRepository t2 fs2 e2 D2).ret = .returned (id2, none))
    (hid : id1 ≠ id2)
    (hf1 : mapLookup gs.mappings id1 = none) (hf2 : mapLookup gs.mappings id2 = none)
    (h1 : (AddGit t1 gs fs1 e1 D1).ret = .returned (P1, none))
    (h2 : (AddGit t2 (AddGit t1 gs fs1 e1 D1).gs fs2 e2 D2).ret = .returned (P2, none)) :
    P1 = e1.freePort.1 ∧ P2 = e2.freePort.1 ∧
    (AddGit t2 (AddGit t1 gs fs1 e1 D1).gs fs2 e2 D2).gs.mappings
      = (id2, newMapping P2 id2) :: (id1, newMapping P1 id1) :: gs.mappings ∧
    (AddGit t1 gs fs1 e1 D1).spawned = [((newMapping P1 id1).server, e1.listenResult)] ∧
    (AddGit t2 (AddGit t1 gs fs1 e1 D1).gs fs2 e2 D2).spawned
      = [((newMapping P2 id2).server, e2.listenResult)] ∧
    (newMapping P1 id1).server ≠ (newMapping P2 id2).server ∧
    (P1 ≠ P2 ↔ e1.freePort.1 ≠ e2.freePort.1) := by
  have hp1 := createTmpRepository_ok_path hs1
  have hp2 := createTmpRepository_ok_path hs2
  subst hp1 hp2
  rcases AddGit_cases t1 gs fs1 e1 D1 with ⟨_, _, _, hP⟩ | ⟨_, _, _, _, hret1, hgs1, _, hsp1⟩
  · obtain ⟨m, hm, _⟩ := hP P1 h1
    rw [hf1] at hm; cases hm
  · rw [hret1] at h1
    simp only [Outcome.returned.injEq, Prod.mk.injEq, and_true] at h1
    have hf2' : mapLookup (AddGit t1 gs fs1 e1 D1).gs.mappings (stagingPath t2) = none := by
      simp only [hgs1, mapLookup, hid, if_false]
      exact hf2
    rcases AddGit_cases t2 (AddGit t1 gs fs1 e1 D1).gs fs2 e2 D2 with
      ⟨_, _, _, hP⟩ | ⟨_, _, _, _, hret2, hgs2, _, hsp2⟩
    · obtain ⟨m, hm, _⟩ := hP P2 h2
      rw [hf2'] at hm; cases hm
    · rw [hret2] at h2
      simp only [Outcome.returned.injEq, Prod.mk.injEq, and_true] at h2
      subst h1 h2
      refine ⟨rfl, rfl, ?_, hsp1, hsp2, ?_, Iff.rfl⟩
      · rw [hgs2, hgs1]
      · intro h
        simp only [newMapping, HttpServer.mk.injEq, Handler.mk.injEq, ServerConfig.mk.injEq]
          at h
        exact hid h.2.1

/-- Witness for C2 amended: the temporary directory changes between the calls and the
allocator answers 8080, then 9090. -/
theorem distinct_identities_own_listener_witness :
    (AddGit ["var", "tmp"] (AddGit ["tmp"] New sampleFS (okEnv 8080) ["src"]).gs sampleFS
      (okEnv 9090) ["other"]).gs.mappings
      = [(["var", "tmp", "vulcan-local-tmp-repository"],
            newMapping 9090 ["var", "tmp", "vulcan-local-tmp-repository"]),
         (["tmp", "vulcan-local-tmp-repository"],
            newMapping 8080 ["tmp", "vulcan-local-tmp-repository"])] :=
  (distinct_identities_own_listener ["tmp"] ["var", "tmp"] New sampleFS sampleFS (okEnv 8080)
    (okEnv 9090) ["src"] ["other"] ["tmp", "vulcan-local-tmp-repository"]
    ["var", "tmp", "vulcan-local-tmp-repository"] 8080 9090
    (by decide) (by decide) (by decide) (by decide) (by decide) (by decide) (by decide)
    (by decide)).2.2.1


/-! ## The staged tree -/

theorem isPrefixOf_append_left (a b c : Path) :
    (a ++ b).isPrefixOf (a ++ c) = b.isPrefixOf c := by
  induction a with
  | nil => rfl
  | cons x rest ih => simp [List.isPrefixOf, ih]

theorem isPrefixOf_append_self (a c : Path) : a.isPrefixOf (a ++ c) = true := by
  have := isPrefixOf_append_left a [] c
  simp only [List.append_nil] at this
  rw [this]
  cases c <;> rfl

/-- A successful snapshot went through every checked step, and its file system is the
composition of the six file-system effects. -/
theorem createTmpRepository_ok_fs {tempDir : Path} {fs : FS} {e : Env} {S p : Path}
    (hs : (createTmpRepository tempDir fs e S).ret = .returned (p, none)) :
    e.commitErr = none ∧
    (createTmpRepository tempDir fs e S).fs =
      writeUnder
        (addGlob
          (writeUnder
            (removeAll
              (writeUnder (removeAll fs (stagingPath tempDir) .ok).2 (stagingPath tempDir)
                (fun rel => (removeAll fs (stagingPath tempDir) .ok).2 (S ++ rel)))
              (stagingPath tempDir ++ [".git"]) e.removeGit).2
            (stagingPath tempDir ++ [".git"]) e.initWrites)
          ⟨⟨stagingPath tempDir⟩⟩ e).2
        (stagingPath tempDir ++ [".git"]) e.commitWrites := by
  cases h0 : e.removeStaging with
  | failed err left => simp [createTmpRepository, h0, removeAll] at hs
  | ok =>
    cases h1 : e.copy with
    | failed err done => simp [createTmpRepository, h0, h1, removeAll, copyCopy] at hs
    | ok =>
      cases h2 : e.initErr with
      | some err =>
        simp [createTmpRepository, h0, h1, h2, removeAll, copyCopy, plainInit, worktree] at hs
      | none =>
        cases h3 : e.worktreeErr with
        | some err =>
          simp [createTmpRepository, h0, h1, h2, h3, removeAll, copyCopy, plainInit, worktree]
            at hs
        | none =>
          cases h4 : e.commitErr with
          | some err =>
            simp [createTmpRepository, h0, h1, h2, h3, h4, removeAll, copyCopy, plainInit,
              worktree, commit] at hs
          | none =>
            refine ⟨rfl, ?_⟩
            have hr : ∀ (g : FS) (q : Path), (removeAll g q .ok).1 = none := fun _ _ => rfl
            simp [createTmpRepository, h0, h1, h2, h3, h4, copyCopy, plainInit,
              worktree, commit, stagingPath, hr]

theorem writeUnder_of_not_prefix (fs : FS) (base : Path) (w : FS) (q : Path)
    (h : base.isPrefixOf q = false) : writeUnder fs base w q = fs q := by
  simp [writeUnder, h]

theorem writeUnder_append (fs : FS) (base : Path) (w : FS) (rel : Path) :
    writeUnder fs base w (base ++ rel) =
      match w rel with
      | some c => some c
      | none => fs (base ++ rel) := by
  simp [writeUnder, isPrefixOf_append_self]

theorem removeAll_of_not_prefix (fs : FS) (p : Path) (r : RemoveResult) (q : Path)
    (h : p.isPrefixOf q = false) : (removeAll fs p r).2 q = fs q := by
  cases r <;> simp only [removeAll, h, Bool.false_and, Bool.false_eq_true, if_false]

theorem removeAll_ok_append (fs : FS) (p rel : Path) :
    (removeAll fs p .ok).2 (p ++ rel) = none := by
  simp [removeAll, isPrefixOf_append_self]

theorem addGlob_of_not_prefix (fs : FS) (w : Worktree) (e : Env) (q : Path)
    (h : (w.repo.path ++ [".git"]).isPrefixOf q = false) : (addGlob fs w e).2 q = fs q := by
  unfold addGlob
  split
  · rfl
  · exact writeUnder_of_not_prefix _ _ _ _ h

/-- What a successful snapshot stages.  When the snapshot of a source directory `S`
succeeds, `S` having no file inside the staging location, then whatever the staging
location held before: the staged files
outside the repository metadata directory `.git` are exactly the files of `S` outside
its root-level `.git`, with their contents at call time; every file below the staged
`.git` was written by this call's repository steps or, where the unchecked removal of
the copied `.git` left it, came from `S`; and when that removal reports no error the
staged `.git` holds exactly what this call's repository steps wrote.  Nothing of the
prior staging content remains. -/
theorem staged_tree_matches_source (tempDir : Path) (fs : FS) (e : Env) (S p : Path)
    (hs : (createTmpRepository tempDir fs e S).ret = .returned (p, none))
    (hout : ∀ rel, (stagingPath tempDir).isPrefixOf (S ++ rel) = true → fs (S ++ rel) = none) :
    p = stagingPath tempDir ∧
    (∀ rel, [".git"].isPrefixOf rel = false →
      (createTmpRepository tempDir fs e S).fs (stagingPath tempDir ++ rel) = fs (S ++ rel)) ∧
    (∀ q, (createTmpRepository tempDir fs e S).fs (stagingPath tempDir ++ ".git" :: q)
        = gitWrites e q ∨
      (createTmpRepository tempDir fs e S).fs (stagingPath tempDir ++ ".git" :: q)
        = fs (S ++ ".git" :: q)) ∧
    (e.removeGit = .ok →
      ∀ q, (createTmpRepository tempDir fs e S).fs (stagingPath tempDir ++ ".git" :: q)
        = gitWrites e q) := by
  obtain ⟨hc, hfs⟩ := createTmpRepository_ok_fs hs
  have hsrc : ∀ rel, (removeAll fs (stagingPath tempDir) .ok).2 (S ++ rel) = fs (S ++ rel) := by
    intro rel
    cases hpre : (stagingPath tempDir).isPrefixOf (S ++ rel) with
    | false => exact removeAll_of_not_prefix _ _ _ _ hpre
    | true => simp [removeAll, hpre, hout rel hpre]
  have hcopy : ∀ rel,
      writeUnder (removeAll fs (stagingPath tempDir) .ok).2 (stagingPath tempDir)
        (fun rel => (removeAll fs (stagingPath tempDir) .ok).2 (S ++ rel))
        (stagingPath tempDir ++ rel) = fs (S ++ rel) := by
    intro rel
    rw [writeUnder_append, removeAll_ok_append]
    simp only [hsrc]
    cases fs (S ++ rel) <;> rfl
  have hassoc : ∀ q : Path, stagingPath tempDir ++ ".git" :: q
      = (stagingPath tempDir ++ [".git"]) ++ q := by
    intro q; simp
  have hgit : ∀ q, (createTmpRepository tempDir fs e S).fs (stagingPath tempDir ++ ".git" :: q)
      = match gitWrites e q with
        | some c => some c
        | none =>
          (removeAll
            (writeUnder (removeAll fs (stagingPath tempDir) .ok).2 (stagingPath tempDir)
              (fun rel => (removeAll fs (stagingPath tempDir) .ok).2 (S ++ rel)))
            (stagingPath tempDir ++ [".git"]) e.removeGit).2
            (stagingPath tempDir ++ ".git" :: q) := by
    intro q
    rw [hfs, hassoc q, writeUnder_append]
    unfold gitWrites addGlob
    cases e.commitWrites q with
    | some c => rfl
    | none =>
      cases e.addGlobErr with
      | some err =>
        simp only [writeUnder_append]
      | none =>
        simp only [writeUnder_append]
        cases e.addGlobWrites q with
        | some c => rfl
        | none => cases e.initWrites q <;> rfl
  refine ⟨createTmpRepository_ok_path hs, ?_, ?_, ?_⟩
  · intro rel hrel
    have hpre : (stagingPath tempDir ++ [".git"]).isPrefixOf (stagingPath tempDir ++ rel)
        = false := by
      rw [isPrefixOf_append_left]; exact hrel
    rw [hfs, writeUnder_of_not_prefix _ _ _ _ hpre, addGlob_of_not_prefix _ _ _ _ hpre,
      writeUnder_of_not_prefix _ _ _ _ hpre, removeAll_of_not_prefix _ _ _ _ hpre]
    exact hcopy rel
  · intro q
    rw [hgit q]
    cases hw : gitWrites e q with
    | some c => left; rfl
    | none =>
      simp only
      cases hr : e.removeGit with
      | ok => left; rw [hassoc q, removeAll_ok_append]
      | failed err left' =>
        cases hl : left' (stagingPath tempDir ++ ".git" :: q) with
        | true =>
          right
          simp only [removeAll, hl, Bool.not_true, Bool.and_false, Bool.false_eq_true, if_false]
          exact hcopy _
        | false =>
          left
          have hl' : left' (stagingPath tempDir ++ [".git"] ++ q) = false := by
            rw [← hassoc q]; exact hl
          rw [hassoc q]
          simp only [removeAll, isPrefixOf_append_self, hl', Bool.not_false, Bool.and_true,
            if_true]
  · intro hr q
    rw [hgit q, hr, hassoc q, removeAll_ok_append]
    cases gitWrites e q <;> rfl

/-- The sample checkout under `src` is staged below `tmp`, where a stale file lay
before. -/
theorem staged_tree_matches_source_witness :
    (createTmpRepository ["tmp"] sampleFS (okEnv 8080) ["src"]).fs
        (stagingPath ["tmp"] ++ ["a.txt"]) = sampleFS (["src"] ++ ["a.txt"]) ∧
    (createTmpRepository ["tmp"] sampleFS (okEnv 8080) ["src"]).fs
        (stagingPath ["tmp"] ++ ["stale.txt"]) = sampleFS (["src"] ++ ["stale.txt"]) ∧
    (createTmpRepository ["tmp"] sampleFS (okEnv 8080) ["src"]).fs
        (stagingPath ["tmp"] ++ ".git" :: ["objects", "ab"])
        = gitWrites (okEnv 8080) ["objects", "ab"] :=
  have h := staged_tree_matches_source ["tmp"] sampleFS (okEnv 8080) ["src"]
    ["tmp", "vulcan-local-tmp-repository"] (by decide)
    (by intro rel h; simp [stagingPath, List.isPrefixOf] at h)
  ⟨h.2.1 ["a.txt"] (by decide), h.2.1 ["stale.txt"] (by decide),
    h.2.2.2 rfl ["objects", "ab"]⟩


/-- C6, at a failing input: the removal of the copied `.git` (source line 95) reports an
error, which the code drops although the removal at line 91 checks its own.  The
snapshot succeeds and `AddGit` returns port 8080 with a nil error, yet the staged tree
holds the pack file of the source's root-level `.git` directory, which none of this
call's repository steps wrote: the staged files other than the newly initialised
metadata are not the files of the source without its `.git`. -/
theorem stale_git_file_survives_snapshot :
    (createTmpRepository ["tmp"] packedFS residueEnv ["src"]).ret
      = .returned (["tmp", "vulcan-local-tmp-repository"], none) ∧
    (AddGit ["tmp"] New packedFS residueEnv ["src"]).ret = .returned (8080, none) ∧
    packedFS ["src", ".git", "objects", "pack", "pack-1.pack"] = some "PACK" ∧
    (createTmpRepository ["tmp"] packedFS residueEnv ["src"]).fs
      ["tmp", "vulcan-local-tmp-repository", ".git", "objects", "pack", "pack-1.pack"]
      = some "PACK" ∧
    gitWrites residueEnv ["objects", "pack", "pack-1.pack"] = none ∧
    (createTmpRepository ["tmp"] packedFS residueEnv ["src"]).fs
      ["tmp", "vulcan-local-tmp-repository", ".git", "HEAD"] = some "ref: refs/heads/master" ∧
    (createTmpRepository ["tmp"] packedFS residueEnv ["src"]).fs
      ["tmp", "vulcan-local-tmp-repository", "a.txt"] = some "A" ∧
    (createTmpRepository ["tmp"] packedFS residueEnv ["src"]).fs
      ["tmp", "vulcan-local-tmp-repository", "stale.txt"] = none := by
  decide

/-! ## Overlapping calls -/

/-- The two atomic steps of a call, taken back to back, are `AddGit`. -/
theorem step_step_eq_AddGit (sh : Shared) (tempDir : Path) (e : Env) (path : Path) :
    (((Thread.ready tempDir e path).step sh).1.step ((Thread.ready tempDir e path).step sh).2).1
      = .finished (AddGit tempDir sh.gs sh.fs e path).ret ∧
    (((Thread.ready tempDir e path).step sh).1.step ((Thread.ready tempDir e path).step sh).2).2
      = { gs := (AddGit tempDir sh.gs sh.fs e path).gs,
          fs := (AddGit tempDir sh.gs sh.fs e path).fs,
          events := sh.events ++ (AddGit tempDir sh.gs sh.fs e path).events,
          spawned := sh.spawned ++ (AddGit tempDir sh.gs sh.fs e path).spawned } := by
  cases hs : (createTmpRepository tempDir sh.fs e path).ret with
  | panicked msg => simp [Thread.step, AddGit, hs]
  | returned pe =>
    obtain ⟨p, err⟩ := pe
    cases err with
    | some err => simp [Thread.step, AddGit, hs]
    | none =>
      cases hm : mapLookup sh.gs.mappings p with
      | some m => simp [Thread.step, AddGit, hs, hm]
      | none =>
        cases hg : e.newGitServerErr with
        | some err => simp [Thread.step, AddGit, hs, hm, hg]
        | none =>
          cases hf : e.freePort.2 with
          | some err => simp [Thread.step, AddGit, hs, hm, hg, hf]
          | none => simp [Thread.step, AddGit, hs, hm, hg, hf]

theorem runSerial_cons_ready (sh : Shared) (tempDir : Path) (e : Env) (path : Path)
    (ts : List Thread) :
    runSerial sh (Thread.ready tempDir e path :: ts) =
      ((runSerial
          { gs := (AddGit tempDir sh.gs sh.fs e path).gs,
            fs := (AddGit tempDir sh.gs sh.fs e path).fs,
            events := sh.events ++ (AddGit tempDir sh.gs sh.fs e path).events,
            spawned := sh.spawned ++ (AddGit tempDir sh.gs sh.fs e path).spawned } ts).1,
        Thread.finished (AddGit tempDir sh.gs sh.fs e path).ret ::
          (runSerial
            { gs := (AddGit tempDir sh.gs sh.fs e path).gs,
              fs := (AddGit tempDir sh.gs sh.fs e path).fs,
              events := sh.events ++ (AddGit tempDir sh.gs sh.fs e path).events,
              spawned := sh.spawned ++ (AddGit tempDir sh.gs sh.fs e path).spawned } ts).2) := by
  obtain ⟨h1, h2⟩ := step_step_eq_AddGit sh tempDir e path
  simp only [runSerial, h1, h2]

theorem portsReturned_cons_finished (ret : Outcome (Int × Option Error)) (ts : List Thread) :
    ∀ P ∈ portsReturned (Thread.finished ret :: ts),
      ret = .returned (P, none) ∨ P ∈ portsReturned ts := by
  intro P hP
  cases ret with
  | panicked msg =>
    right
    simpa [portsReturned, Thread.result] using hP
  | returned pe =>
    obtain ⟨port, err⟩ := pe
    cases err with
    | some err =>
      right
      simpa [portsReturned, Thread.result] using hP
    | none =>
      simp only [portsReturned, List.filterMap_cons, Thread.result, List.mem_cons] at hP
      rcases hP with rfl | hP
      · left; rfl
      · right; exact hP

/-- Once the identity is in the table, calls that do not overlap start nothing, leave
the service as it is, and all return the recorded port. -/
theorem runSerial_hit (tempDir D : Path) (m : gitMapping) (envs : List Env) (sh : Shared)
    (hm : mapLookup sh.gs.mappings (stagingPath tempDir) = some m) :
    (runSerial sh (envs.map (fun e => Thread.ready tempDir e D))).1.gs = sh.gs ∧
    (runSerial sh (envs.map (fun e => Thread.ready tempDir e D))).1.spawned = sh.spawned ∧
    (runSerial sh (envs.map (fun e => Thread.ready tempDir e D))).1.events.countP
      Event.isNewServer = sh.events.countP Event.isNewServer ∧
    (runSerial sh (envs.map (fun e => Thread.ready tempDir e D))).1.events.countP
      Event.isGo = sh.events.countP Event.isGo ∧
    ∀ P ∈ portsReturned (runSerial sh (envs.map (fun e => Thread.ready tempDir e D))).2,
      P = m.port := by
  induction envs generalizing sh with
  | nil => simp [runSerial, portsReturned]
  | cons e rest ih =>
    simp only [List.map_cons, runSerial_cons_ready]
    rcases AddGit_cases tempDir sh.gs sh.fs e D with
      ⟨hgs, hsp, hev, hP⟩ | ⟨hnone, _⟩
    · have hm' : mapLookup (AddGit tempDir sh.gs sh.fs e D).gs.mappings (stagingPath tempDir)
          = some m := by rw [hgs]; exact hm
      obtain ⟨i1, i2, i3, i4, i5⟩ := ih
        { gs := (AddGit tempDir sh.gs sh.fs e D).gs,
          fs := (AddGit tempDir sh.gs sh.fs e D).fs,
          events := sh.events ++ (AddGit tempDir sh.gs sh.fs e D).events,
          spawned := sh.spawned ++ (AddGit tempDir sh.gs sh.fs e D).spawned } hm'
      refine ⟨by rw [i1, hgs], by rw [i2, hsp, List.append_nil], ?_, ?_, ?_⟩
      · rw [i3, List.countP_append,
          countP_eq_zero_of_forall (fun ev h => (hev ev h).1), add_zero]
      · rw [i4, List.countP_append,
          countP_eq_zero_of_forall (fun ev h => (hev ev h).2.1), add_zero]
      · intro P hPmem
        rcases portsReturned_cons_finished _ _ P hPmem with hret | hmem
        · obtain ⟨m', hm'', hport⟩ := hP P hret
          rw [hm] at hm''
          cases hm''
          exact hport.symm
        · exact i5 P hmem
    · rw [hm] at hnone
      cases hnone

theorem getElem?_append_length {α : Type} (l : List α) (a : α) (r : List α) :
    (l ++ a :: r)[l.length]? = some a := by
  induction l with
  | nil => simp
  | cons x rest ih => simpa using ih

theorem set_append_length {α : Type} (l : List α) (a b : α) (r : List α) :
    (l ++ a :: r).set l.length b = l ++ b :: r := by
  induction l with
  | nil => rfl
  | cons x rest ih => simp

/-- Under the schedule without overlap the scheduler runs the calls one after the
other. -/
theorem runSchedule_serial (pending done : List Thread) (sh : Shared) :
    runSchedule sh (done ++ pending) (serialSchedule done.length pending.length)
      = ((runSerial sh pending).1, done ++ (runSerial sh pending).2) := by
  induction pending generalizing done sh with
  | nil => simp [serialSchedule, runSchedule, runSerial]
  | cons t ts ih =>
    have h5 := ih (done ++ [((t.step sh).1.step (t.step sh).2).1])
      ((t.step sh).1.step (t.step sh).2).2
    simp only [List.length_append, List.length_singleton, List.append_assoc,
      List.singleton_append] at h5
    simp only [List.length_cons, serialSchedule, runSchedule, getElem?_append_length,
      set_append_length, h5, runSerial]

/-- Calls that do not overlap create at most one mapping, construct at most one server,
start at most one listener, and all return the same port. -/
theorem runSerial_one_listener (tempDir D : Path) (envs : List Env) (sh : Shared) :
    (∃ new, (runSerial sh (envs.map (fun e => Thread.ready tempDir e D))).1.spawned
        = sh.spawned ++ new ∧ new.length ≤ 1) ∧
    (runSerial sh (envs.map (fun e => Thread.ready tempDir e D))).1.gs.mappings.length
      ≤ sh.gs.mappings.length + 1 ∧
    (runSerial sh (envs.map (fun e => Thread.ready tempDir e D))).1.events.countP
      Event.isNewServer ≤ sh.events.countP Event.isNewServer + 1 ∧
    (runSerial sh (envs.map (fun e => Thread.ready tempDir e D))).1.events.countP
      Event.isGo ≤ sh.events.countP Event.isGo + 1 ∧
    ∀ P ∈ portsReturned (runSerial sh (envs.map (fun e => Thread.ready tempDir e D))).2,
      ∀ Q ∈ portsReturned (runSerial sh (envs.map (fun e => Thread.ready tempDir e D))).2,
        P = Q := by
  induction envs generalizing sh with
  | nil => exact ⟨⟨[], by simp [runSerial], by simp⟩, by simp [runSerial],
      by simp [runSerial], by simp [runSerial], by simp [runSerial, portsReturned]⟩
  | cons e rest ih =>
    cases hlk : mapLookup sh.gs.mappings (stagingPath tempDir) with
    | some m =>
      obtain ⟨h1, h2, h3, h4, h5⟩ := runSerial_hit tempDir D m (e :: rest) sh hlk
      refine ⟨⟨[], by rw [h2, List.append_nil], by simp⟩, by rw [h1]; omega, by rw [h3]; omega,
        by rw [h4]; omega, ?_⟩
      intro P hP Q hQ
      rw [h5 P hP, h5 Q hQ]
    | none =>
      simp only [List.map_cons, runSerial_cons_ready]
      rcases AddGit_cases tempDir sh.gs sh.fs e D with
        ⟨hgs, hsp, hev, hP⟩ | ⟨_, _, _, _, hret, hgs, hev, hsp⟩
      · obtain ⟨⟨new, i1, i1'⟩, i2, i3, i4, i5⟩ := ih
          { gs := (AddGit tempDir sh.gs sh.fs e D).gs,
            fs := (AddGit tempDir sh.gs sh.fs e D).fs,
            events := sh.events ++ (AddGit tempDir sh.gs sh.fs e D).events,
            spawned := sh.spawned ++ (AddGit tempDir sh.gs sh.fs e D).spawned }
        have hnoport : ∀ P, (AddGit tempDir sh.gs sh.fs e D).ret ≠ .returned (P, none) := by
          intro P hret
          obtain ⟨m, hm, _⟩ := hP P hret
          rw [hlk] at hm
          cases hm
        refine ⟨⟨new, ?_, i1'⟩, ?_, ?_, ?_, ?_⟩
        · rw [i1, hsp, List.append_nil]
        · exact i2.trans_eq (by simp only [hgs])
        · simp only [List.countP_append,
            countP_eq_zero_of_forall (fun ev h => (hev ev h).1), add_zero] at i3
          exact i3
        · simp only [List.countP_append,
            countP_eq_zero_of_forall (fun ev h => (hev ev h).2.1), add_zero] at i4
          exact i4
        · intro P hPm Q hQm
          rcases portsReturned_cons_finished _ _ P hPm with hret | hPm'
          · exact absurd hret (hnoport P)
          · rcases portsReturned_cons_finished _ _ Q hQm with hret | hQm'
            · exact absurd hret (hnoport Q)
            · exact i5 P hPm' Q hQm'
      · have hm' : mapLookup (AddGit tempDir sh.gs sh.fs e D).gs.mappings (stagingPath tempDir)
            = some (newMapping e.freePort.1 (stagingPath tempDir)) := by
          rw [hgs]; simp [mapLookup]
        obtain ⟨j1, j2, j3, j4, j5⟩ := runSerial_hit tempDir D _ rest
          { gs := (AddGit tempDir sh.gs sh.fs e D).gs,
            fs := (AddGit tempDir sh.gs sh.fs e D).fs,
            events := sh.events ++ (AddGit tempDir sh.gs sh.fs e D).events,
            spawned := sh.spawned ++ (AddGit tempDir sh.gs sh.fs e D).spawned } hm'
        have hall : ∀ P ∈ portsReturned
            (Thread.finished (AddGit tempDir sh.gs sh.fs e D).ret ::
              (runSerial
                { gs := (AddGit tempDir sh.gs sh.fs e D).gs,
                  fs := (AddGit tempDir sh.gs sh.fs e D).fs,
                  events := sh.events ++ (AddGit tempDir sh.gs sh.fs e D).events,
                  spawned := sh.spawned ++ (AddGit tempDir sh.gs sh.fs e D).spawned }
                (rest.map (fun e => Thread.ready tempDir e D))).2),
            P = e.freePort.1 := by
          intro P hPm
          rcases portsReturned_cons_finished _ _ P hPm with hret' | hPm'
          · rw [hret] at hret'
            simp only [Outcome.returned.injEq, Prod.mk.injEq, and_true] at hret'
            exact hret'.symm
          · exact j5 P hPm'
        refine ⟨⟨[((newMapping e.freePort.1 (stagingPath tempDir)).server, e.listenResult)],
          by rw [j2, hsp], Nat.le_refl 1⟩, ?_, ?_, ?_, ?_⟩
        · rw [j1, hgs]; exact Nat.le_refl _
        · rw [j3, hev, List.countP_append, List.countP_append,
            (snapshot_counts tempDir sh.fs e D).1, (startEvents_counts _ _).1]
        · rw [j4, hev, List.countP_append, List.countP_append,
            (snapshot_counts tempDir sh.fs e D).2.1, (startEvents_counts _ _).2.1]
        · intro P hPm Q hQm
          rw [hall P hPm, hall Q hQm]

/-- C8, amended: for every directory `D`, every state and every number of `AddGit(D)`
calls scheduled without overlap (each call takes both its steps before the next one
begins), at most one mapping is created and recorded, at most one server is constructed
and at most one listener is started, and all callers that get a port get the same one.
Schedules with overlap are not covered: the lookup and the table write of one call are
separate steps. -/
theorem serial_calls_one_listener (tempDir D : Path) (envs : List Env) (sh : Shared) :
    (∃ new, (runSchedule sh (envs.map (fun e => Thread.ready tempDir e D))
        (serialSchedule 0 envs.length)).1.spawned = sh.spawned ++ new ∧ new.length ≤ 1) ∧
    (runSchedule sh (envs.map (fun e => Thread.ready tempDir e D))
      (serialSchedule 0 envs.length)).1.gs.mappings.length ≤ sh.gs.mappings.length + 1 ∧
    (runSchedule sh (envs.map (fun e => Thread.ready tempDir e D))
      (serialSchedule 0 envs.length)).1.events.countP Event.isNewServer
        ≤ sh.events.countP Event.isNewServer + 1 ∧
    (runSchedule sh (envs.map (fun e => Thread.ready tempDir e D))
      (serialSchedule 0 envs.length)).1.events.countP Event.isGo
        ≤ sh.events.countP Event.isGo + 1 ∧
    ∀ P ∈ portsReturned (runSchedule sh (envs.map (fun e => Thread.ready tempDir e D))
        (serialSchedule 0 envs.length)).2,
      ∀ Q ∈ portsReturned (runSchedule sh (envs.map (fun e => Thread.ready tempDir e D))
          (serialSchedule 0 envs.length)).2,
        P = Q := by
  have h := runSchedule_serial (envs.map (fun e => Thread.ready tempDir e D)) [] sh
  simp only [List.nil_append, List.length_nil, List.length_map] at h
  rw [h]
  exact runSerial_one_listener tempDir D envs sh

/-- C8, counterexample: two `AddGit` calls for the same directory, the second taking its
first step before the first call takes its second.  Both miss the table; two servers are
constructed, two listeners started, the callers get ports 8080 and 9090, and the table
keeps only the mapping written last. -/
theorem overlapping_calls_two_listeners :
    (runSchedule (Shared.init sampleFS) twoCalls [0, 1, 0, 1]).2.map Thread.result
      = [some (.returned (8080, none)), some (.returned (9090, none))] ∧
    (runSchedule (Shared.init sampleFS) twoCalls [0, 1, 0, 1]).1.spawned.map Prod.fst
      = [(newMapping 8080 ["tmp", "vulcan-local-tmp-repository"]).server,
         (newMapping 9090 ["tmp", "vulcan-local-tmp-repository"]).server] ∧
    (runSchedule (Shared.init sampleFS) twoCalls [0, 1, 0, 1]).1.events.countP
      Event.isNewServer = 2 ∧
    (runSchedule (Shared.init sampleFS) twoCalls [0, 1, 0, 1]).1.events.countP Event.isGo = 2 ∧
    (runSchedule (Shared.init sampleFS) twoCalls [0, 1, 0, 1]).1.gs.mappings
      = [(["tmp", "vulcan-local-tmp-repository"],
          newMapping 9090 ["tmp", "vulcan-local-tmp-repository"])] := by
  decide

end GitService
